import Mathlib

/-!
Verification of the youtube-scraper core pipeline against its specification.

The TypeScript sources are shallowly embedded: JS strings become `List Char`,
fallible asynchronous operations become `Except String α` values supplied by
oracles (one oracle per external browser-engine call), and the sequential
worker loop becomes a structurally recursive function over the list of
discovered URLs paired with each URL's pipeline outcome.
-/

namespace YoutubeScraper

/-- JS strings are modelled as lists of characters. -/
abbrev Str := List Char

/-! ## Generic string predicates (substring machinery) -/

/-- Boolean test: `p` is a leading segment of `s`. -/
def startsWithB : Str → Str → Bool
  | [], _ => true
  | _ :: _, [] => false
  | p :: ps, c :: cs => p == c && startsWithB ps cs

/-- Boolean test: `p` occurs contiguously inside `s`. -/
def containsSub (p : Str) : Str → Bool
  | [] => startsWithB p []
  | c :: cs => startsWithB p (c :: cs) || containsSub p cs

/-- Propositional form of contiguous occurrence. -/
def occursIn (p s : Str) : Prop := ∃ u v, s = u ++ p ++ v

/-! ## Video-id extraction

`extractVideoId` (src/src/scraper/helpers/metadataExtractor.ts lines 105-108
and src/src/scraper/helpers/contentHelpers.ts lines 13-16) runs the regex
`/[?&]v=([^&#]*)/` on the URL and returns the capture group, or `""` when the
regex does not match.  `matchVParam` models the regex engine's leftmost-match
search: scan for a `'?'` or `'&'` immediately followed by `"v="`, then capture
greedily every character other than `'&'` and `'#'`. -/

def matchVParam : Str → Option Str
  | [] => none
  | c :: rest =>
    if c = '?' ∨ c = '&' then
      match rest with
      | d :: e :: tail =>
        if d = 'v' ∧ e = '=' then some (tail.takeWhile fun x => x != '&' && x != '#')
        else matchVParam rest
      | _ => matchVParam rest
    else matchVParam rest

/-- Source: `url.match(/[?&]v=([^&#]*)/); return match ? match[1] : ""`. -/
def extractVideoId (url : Str) : Str := (matchVParam url).getD []

/-- Whether the regex `/[?&]v=([^&#]*)/` matches at all. -/
def hasVParam (url : Str) : Bool := (matchVParam url).isSome

/-- Source (src/src/lib/output.ts lines 73-76): same regex, but the fallback
when there is no match is `"unknown-id"`. -/
def extractVideoIdOrUnknown (url : Str) : Str :=
  (matchVParam url).getD ("unknown-id".toList)

/-! ## Video URL discovery (src/src/scraper/getVideoUrls.ts lines 36-56)

The page evaluate collects every anchor href containing `"/watch?v="`, maps
each href through `href.split("&")[0]`, de-duplicates via
`[...new Set(...)]` (a JS `Set` iterates in insertion order, so the first
occurrence of each value survives), and returns
`uniqueUrls.slice(offset, offset + maxVideos)`. -/

/-- Source: `href.split("&")[0]` — everything before the first `'&'`. -/
def stripAfterAmp (s : Str) : Str := s.takeWhile (· != '&')

/-- Model of `[...new Set(xs)]`: fold left, appending each element not seen
before; JS `Set` iteration order is insertion order. -/
def jsSetToArray (xs : List Str) : List Str :=
  xs.foldl (fun acc x => if x ∈ acc then acc else acc ++ [x]) []

/-- Model of `Array.prototype.slice(a, b)` for non-negative indices. -/
def jsSliceNat (l : List Str) (a b : Nat) : List Str := (l.drop a).take (b - a)

/-- The URL-extraction step of `getVideoUrls`, as a function of the hrefs of
the anchors matched on the channel page (in DOM order) and the configured
`offset` and `maxVideos`. -/
def getVideoUrls (hrefs : List Str) (offset maxVideos : Nat) : List Str :=
  jsSliceNat (jsSetToArray (hrefs.map stripAfterAmp)) offset (offset + maxVideos)

/-- Modelled from the spec: "de-duplicate while preserving first-seen order".
Keeps the first occurrence of each element and erases the later duplicates;
used as the specification-side description `getVideoUrls` is compared to. -/
def dedupFirstSeen : List Str → List Str
  | [] => []
  | x :: xs => x :: dedupFirstSeen (xs.filter (· ≠ x))
termination_by l => l.length
decreasing_by
  simp only [List.length_cons]
  exact Nat.lt_succ_of_le (List.length_filter_le _ _)

/-! ## Description trimming
(src/src/scraper/helpers/metadataExtractor.ts lines 10-22 and 172-184)

`trimDescription` truncates at the first occurrence of the literal marker
`"…...more\n"`, performs the global regex replace `/\n\n/g → "\n"` (a single
left-to-right pass over non-overlapping pairs), and finally `trim()`s. -/

/-- The literal show-more marker `"…...more\n"`. -/
def moreMarker : Str := "…...more\n".toList

/-- Source: `description.indexOf("…...more\n")` followed by
`description.substring(0, moreIndex)` when the marker occurs (everything from
the first occurrence onward is dropped), the whole string otherwise. -/
def dropFromMarker : Str → Str
  | [] => []
  | c :: r => if startsWithB moreMarker (c :: r) then [] else c :: dropFromMarker r

/-- Source: `trimmed.replace(/\n\n/g, "\n")` — a JS global replace scans left
to right, replacing each non-overlapping `"\n\n"` with `"\n"`. -/
def collapseNewlines : Str → Str
  | [] => []
  | [c] => [c]
  | c :: d :: r =>
    if c = '\n' ∧ d = '\n' then '\n' :: collapseNewlines r
    else c :: collapseNewlines (d :: r)

/-- The whitespace class of JS `String.prototype.trim` (spaces, tabs, line
terminators, vertical tab, form feed, NBSP). -/
def isJsWhitespace (c : Char) : Bool :=
  c == ' ' || c == '\t' || c == '\n' || c == '\r' ||
  c == Char.ofNat 11 || c == Char.ofNat 12 || c == Char.ofNat 160

/-- Source: `.trim()` — strip leading and trailing whitespace. -/
def jsTrim (s : Str) : Str :=
  ((s.dropWhile isJsWhitespace).reverse.dropWhile isJsWhitespace).reverse

/-- Source: `trimDescription` — empty in, empty out; otherwise truncate at the
marker, collapse doubled newlines, trim. -/
def trimDescription (s : Str) : Str :=
  if s.isEmpty then [] else jsTrim (collapseNewlines (dropFromMarker s))

/-- Two consecutive newline characters. -/
def doubleNewline : Str := ['\n', '\n']

/-- Three consecutive newline characters. -/
def tripleNewline : Str := ['\n', '\n', '\n']

/-! ## Filename derivation (src/src/lib/output.ts lines 62-92)

`generateFileName` extracts the video id from `metadata.scraped_url`
(fallback `"unknown-id"`), chooses `uploadDate || datePublished || null`, runs
the chosen string through `formatDateForFolder` (JS `new Date` parsing plus
date-fns `format(date, "yy-MM-dd")`, `null` on anything unparseable), and
returns `` `${datePrefix} ${videoId}` `` when the prefix is truthy, the bare
id otherwise.  The date engine (`new Date` + `format`) is external to the
repository and is passed in as the oracle `dateFmt`; `none` models the
`null` returned for an unparseable date. -/

/-- The record persisted per video (src/src/types/VideoMetadata.ts). -/
structure VideoMetadataR where
  id : Str
  url : Str
  title : Str
  description : Str
  keywords : Str
  image : Str
  name : Str
  duration : Str
  width : Str
  height : Str
  userInteractionCount : Str
  datePublished : Str
  uploadDate : Str
  genre : Str
  expandedDescription : Str
  scraped_url : Str
  scraped_at : Str
  screenshot_path : Option Str := none
deriving DecidableEq

/-- Source: `metadata.uploadDate || metadata.datePublished || null` (JS `||`
treats the empty string as falsy). -/
def chooseDateString (m : VideoMetadataR) : Option Str :=
  if m.uploadDate ≠ [] then some m.uploadDate
  else if m.datePublished ≠ [] then some m.datePublished
  else none

/-- Source: `generateFileName`.  `dateFmt` is the external
`formatDateForFolder` date engine (`new Date` + `format "yy-MM-dd"`, `none`
when unparseable); the final JS conditional tests the prefix for truthiness,
so an empty prefix also yields the bare id. -/
def generateFileName (dateFmt : Str → Option Str) (m : VideoMetadataR) : Str :=
  let videoId := extractVideoIdOrUnknown m.scraped_url
  match (chooseDateString m).bind dateFmt with
  | some d => if d = [] then videoId else d ++ ' ' :: videoId
  | none => videoId

/-! ## The worker loop (src/src/scraper/scrapeVideos.ts lines 40-106)

The loop walks the discovered URLs in order.  Each iteration drives the
per-video pipeline exactly once; the pipeline's result for each URL is
supplied as an `Except String α` oracle zipped with the URL (an `α` on
success, the thrown error's message on failure).  On success the metadata is
appended to `success`; on a thrown error exactly one
`{url, error, retries_attempted: config.maxRetries}` record is appended to
`failed` and the loop continues.  In interactive mode the operator is
prompted after every video (the prompt answers are the `decisions` stream;
`false` models `'q'` and breaks out of the loop).  The backoff delay is
awaited only when more URLs remain and the mode is not interactive.  The
model additionally records the URLs whose pipeline was driven (`attempted`),
the number of `delay()` awaits (`delays`), and whether the operator broke out
early (`earlyExit`). -/

/-- The slice of `Config` the worker loop reads (src/src/types/Config.ts). -/
structure LoopConfig where
  interactive : Bool
  maxRetries : Nat
deriving DecidableEq

/-- Source: `FailedVideo` (src/src/types/VideoMetadata.ts lines 33-37). -/
structure FailedVideoR where
  url : Str
  error : String
  retries_attempted : Nat
deriving DecidableEq

/-- The observable outcome of one `scrapeVideos` run. -/
structure LoopResult (α : Type) where
  success : List α
  failed : List FailedVideoR
  attempted : List Str
  delays : Nat
  earlyExit : Bool
deriving DecidableEq

/-- Source: `scrapeVideos` — the sequential worker loop. -/
def scrapeVideos {α : Type} (cfg : LoopConfig) :
    List (Str × Except String α) → List Bool → LoopResult α
  | [], _ => ⟨[], [], [], 0, false⟩
  | (u, o) :: rest, ds =>
    match o with
    | Except.ok m =>
      if cfg.interactive then
        if ds.headD true then
          let r := scrapeVideos cfg rest ds.tail
          ⟨m :: r.success, r.failed, u :: r.attempted, r.delays, r.earlyExit⟩
        else ⟨[m], [], [u], 0, true⟩
      else
        let r := scrapeVideos cfg rest ds
        ⟨m :: r.success, r.failed, u :: r.attempted,
          (if rest.isEmpty then 0 else 1) + r.delays, r.earlyExit⟩
    | Except.error e =>
      let fv : FailedVideoR := ⟨u, e, cfg.maxRetries⟩
      if cfg.interactive then
        if ds.headD true then
          let r := scrapeVideos cfg rest ds.tail
          ⟨r.success, fv :: r.failed, u :: r.attempted, r.delays, r.earlyExit⟩
        else ⟨[], [fv], [u], 0, true⟩
      else
        let r := scrapeVideos cfg rest ds
        ⟨r.success, fv :: r.failed, u :: r.attempted,
          (if rest.isEmpty then 0 else 1) + r.delays, r.earlyExit⟩

/-- The success entry an offered URL contributes, if any. -/
def okEntry {α : Type} : Str × Except String α → Option α
  | (_, Except.ok m) => some m
  | (_, Except.error _) => none

/-- The failure entry an offered URL contributes, if any. -/
def errEntry {α : Type} (cfg : LoopConfig) : Str × Except String α → Option FailedVideoR
  | (_, Except.ok _) => none
  | (u, Except.error e) => some ⟨u, e, cfg.maxRetries⟩

/-- Source: the `summary` object assembled in
src/src/scraper/scrapeYouTubeChannel.ts lines 49-57. -/
structure SummaryR where
  total_attempted : Nat
  successful : Nat
  failed : Nat
  duration_ms : Nat
deriving DecidableEq

/-- Source: `ScrapingResult` (src/src/types/VideoMetadata.ts lines 22-31). -/
structure ScrapingResultR (α : Type) where
  success : List α
  failed : List FailedVideoR
  summary : SummaryR
deriving DecidableEq

/-- Source: `scrapeYouTubeChannel` — runs the worker loop over the discovered
URLs and assembles the result with `total_attempted := videoUrls.length`. -/
def scrapeYouTubeChannelRun {α : Type} (cfg : LoopConfig)
    (items : List (Str × Except String α)) (ds : List Bool)
    (durationMs : Nat) : ScrapingResultR α :=
  let r := scrapeVideos cfg items ds
  { success := r.success
    failed := r.failed
    summary :=
      { total_attempted := items.length
        successful := r.success.length
        failed := r.failed.length
        duration_ms := durationMs } }

/-- Source: `ExponentialBackoff.delay` (src/src/utils/ExponentialBackoff.ts
lines 33-36): `jitter = Math.random() * 500` and the awaited timeout is
`this.baseDelay + jitter`.  `r` is the `Math.random()` draw. -/
def delayDuration (baseDelay r : ℚ) : ℚ := baseDelay + r * 500

/-! ## Best-effort page-interaction helpers
(src/src/scraper/helpers/pageHelpers.ts)

Each helper is modelled over oracles for its fallible browser-engine calls
(`Except.error` models a rejected promise).  A JS `try { body } catch \x7b\x7d`
around a body of type `Except String Unit` maps any error to a normal
return. -/

/-- A selector candidate inside `findAndClickButton`: the settled
`isVisible`/`isEnabled` probe (a `Promise.allSettled` slot, so a rejection is
recorded, never propagated) and the result of clicking its locator. -/
structure SelectorCandidate where
  probe : Except String (Bool × Bool)
  clickRes : Except String Unit

/-- Source: `findAndClickButton` lines 16-103 — probes all selectors via
`Promise.allSettled`, then clicks the first fulfilled candidate that is
visible and enabled; a failed click is caught and the scan continues; no
candidate clickable yields `false`. -/
def findAndClickButton : List SelectorCandidate → Except String Bool
  | [] => Except.ok false
  | c :: cs =>
    match c.probe with
    | Except.ok (visible, enabled) =>
      if visible && enabled then
        match c.clickRes with
        | Except.ok _ => Except.ok true
        | Except.error _ => findAndClickButton cs
      else findAndClickButton cs
    | Except.error _ => findAndClickButton cs

/-- Source: `handleConsentDialog` lines 105-117 — `try` visibility probe,
click, settle delay; any rejection is swallowed by the `catch`. -/
def handleConsentDialog (vis : Except String Bool) (click wait : Except String Unit) :
    Except String Unit :=
  match (do
      let v ← vis
      if v then do click; wait else pure ()) with
  | Except.ok _ => Except.ok ()
  | Except.error _ => Except.ok ()

/-- Source: `dismissPopups` lines 119-141 — awaits `findAndClickButton` over
the popup selectors (no surrounding try/catch of its own). -/
def dismissPopups (cands : List SelectorCandidate) : Except String Unit := do
  let _ ← findAndClickButton cands
  pure ()

/-- Source: `pauseVideo` lines 143-160 — `try` waitForSelector then evaluate;
rejections swallowed. -/
def pauseVideo (waitSel evalPause : Except String Unit) : Except String Unit :=
  match (do waitSel; evalPause) with
  | Except.ok _ => Except.ok ()
  | Except.error _ => Except.ok ()

/-- Source: `enableTheaterMode` lines 162-171 — `try` key press then delay. -/
def enableTheaterMode (press wait : Except String Unit) : Except String Unit :=
  match (do press; wait) with
  | Except.ok _ => Except.ok ()
  | Except.error _ => Except.ok ()

/-- Source: `enableDarkMode` lines 173-181 — `try` emulateMedia. -/
def enableDarkMode (emulate : Except String Unit) : Except String Unit :=
  match emulate with
  | Except.ok _ => Except.ok ()
  | Except.error _ => Except.ok ()

/-- Source: `hideSuggestedContent` lines 183-200 — `try` addStyleTag. -/
def hideSuggestedContent (addStyle : Except String Unit) : Except String Unit :=
  match addStyle with
  | Except.ok _ => Except.ok ()
  | Except.error _ => Except.ok ()

/-- Source: `expandDescription` lines 220-238 — awaits `findAndClickButton`
over the expand selectors (no surrounding try/catch of its own). -/
def expandDescription (cands : List SelectorCandidate) : Except String Unit := do
  let _ ← findAndClickButton cands
  pure ()

/-- Source constant `SCROLL_ITERATIONS = 5`. -/
def SCROLL_ITERATIONS : Nat := 5

/-- The scroll loop body: evaluate the scroll, then `waitForTimeout`, `n`
times; `i` is the iteration counter. -/
def scrollLoop (evalScroll waitMs : Nat → Except String Unit) :
    Nat → Nat → Except String Unit
  | _, 0 => Except.ok ()
  | i, n + 1 => do
    evalScroll i
    waitMs i
    scrollLoop evalScroll waitMs (i + 1) n

/-- Source: `scrollToLoadVideos` lines 202-218 — five scroll/wait rounds with
no try/catch anywhere in the function body. -/
def scrollToLoadVideos (evalScroll waitMs : Nat → Except String Unit) :
    Except String Unit :=
  scrollLoop evalScroll waitMs 0 SCROLL_ITERATIONS

/-! ## Metadata extraction
(src/src/scraper/helpers/metadataExtractor.ts)

Two historical variants share the symbol `extractPageMetadata`; both produce
the same field set.  The DOM is modelled as two partial maps: `text` from a
selector to the trimmed-source `textContent` of the first matching element
(`none` when the selector matches nothing or `textContent` is `null`) and
`attr` from a selector/attribute pair to the attribute value. -/

/-- The rendered page's DOM, as the extractor's `evaluate` callbacks query it. -/
structure DomModel where
  text : String → Option Str
  attr : String → String → Option Str

/-- Source: `getTextContent` (lines 201-204):
`element?.textContent?.trim() || ""`. -/
def getTextContentM (d : DomModel) (sel : String) : Str :=
  match d.text sel with
  | none => []
  | some t => jsTrim t

/-- Source: `getAttribute` (lines 206-209):
`element?.getAttribute(attr) || ""`. -/
def getAttributeM (d : DomModel) (sel attrName : String) : Str :=
  match d.attr sel attrName with
  | none => []
  | some v => v

/-- JS `a || b` on strings: the first operand unless it is empty. -/
def orElseStr (a b : Str) : Str := if a = [] then b else a

/-- The record `extractPageMetadata` returns (the fields of the object
literal built at lines 211-255 plus `id`, `tags`, `language`,
`scraped_at`). -/
structure ExtractedMetadata where
  id : Str
  url : Str
  title : Str
  description : Str
  author : Str
  channelUrl : Str
  viewCount : Str
  likeCount : Str
  publishedDate : Str
  duration : Str
  thumbnailUrl : Str
  category : Str
  uploadDate : Str
  tags : List Str
  language : Str
  scraped_at : Str
deriving DecidableEq

/-- Source: `extractTags` (lines 281-294) — collect the `content` attributes
of the `og:video:tag` meta elements, dropping nulls; a thrown evaluate is
caught and yields `[]`.  The oracle carries the raw attribute list. -/
def extractTagsM (tagsDom : Except String (List (Option Str))) : List Str :=
  match tagsDom with
  | Except.ok l => l.filterMap id
  | Except.error _ => []

/-- Source: `extractLanguage` (lines 296-305) —
`langMeta?.getAttribute("content") || "unknown"`, with a thrown evaluate
caught and mapped to `"unknown"`. -/
def extractLanguageM (langDom : Except String (Option Str)) : Str :=
  match langDom with
  | Except.ok (some l) => if l = [] then "unknown".toList else l
  | Except.ok none => "unknown".toList
  | Except.error _ => "unknown".toList

/-- Source: the DOM-evaluate variant of `extractPageMetadata` (lines
192-273).  `pageEval` models the single `page.evaluate` carrying the DOM
(`Except.error` when the evaluate itself throws — there is no try/catch
around it, so that error propagates); the per-field fallback chains mirror
the `||` chains of the object literal. -/
def extractPageMetadataV2 (url : Str) (pageEval : Except String DomModel)
    (tagsDom : Except String (List (Option Str)))
    (langDom : Except String (Option Str)) (nowIso : Str) :
    Except String ExtractedMetadata :=
  match pageEval with
  | Except.error e => Except.error e
  | Except.ok d =>
    Except.ok
      { id := extractVideoId url
        url := url
        title :=
          orElseStr (getTextContentM d "h1[data-e2e=\"video-title\"]")
            (orElseStr (getTextContentM d "h1.ytd-video-primary-info-renderer")
              (orElseStr (getTextContentM d "h1.title") (getTextContentM d "h1")))
        description :=
          trimDescription
            (orElseStr (getTextContentM d "#description-text")
              (orElseStr (getTextContentM d "#description")
                (orElseStr (getTextContentM d "#description-inline-expander")
                  (orElseStr (getTextContentM d ".description")
                    (orElseStr (getTextContentM d "[data-e2e=\"video-description\"]")
                      (getTextContentM d "#watch-description-text"))))))
        author :=
          orElseStr (getTextContentM d "#owner-name a")
            (orElseStr (getTextContentM d ".channel-name")
              (getTextContentM d "[data-e2e=\"video-author\"]"))
        channelUrl :=
          orElseStr (getAttributeM d "#owner-name a" "href")
            (getAttributeM d ".channel-name a" "href")
        viewCount :=
          orElseStr (getTextContentM d "#info-text")
            (orElseStr (getTextContentM d ".view-count")
              (getTextContentM d "[data-e2e=\"video-view-count\"]"))
        likeCount :=
          orElseStr (getTextContentM d "button[aria-label*=\"like\"] span[role=\"text\"]")
            (getTextContentM d ".like-count")
        publishedDate :=
          orElseStr (getTextContentM d "#info-text")
            (orElseStr (getTextContentM d ".date")
              (getTextContentM d "[data-e2e=\"video-publish-date\"]"))
        duration :=
          orElseStr (getTextContentM d ".ytp-time-duration")
            (getAttributeM d "meta[itemprop=\"duration\"]" "content")
        thumbnailUrl :=
          orElseStr (getAttributeM d "link[itemprop=\"thumbnailUrl\"]" "href")
            (getAttributeM d "meta[property=\"og:image\"]" "content")
        category :=
          orElseStr (getAttributeM d "meta[itemprop=\"genre\"]" "content")
            (getAttributeM d "meta[property=\"og:video:genre\"]" "content")
        uploadDate :=
          orElseStr (getAttributeM d "meta[itemprop=\"uploadDate\"]" "content")
            (getAttributeM d "meta[property=\"og:video:release_date\"]" "content")
        tags := extractTagsM tagsDom
        language := extractLanguageM langDom
        scraped_at := nowIso }

/-- Source: the `Promise.all`-of-`page.textContent` variant of
`extractPageMetadata` (lines 42-98).  Each of the ten field lookups is an
oracle returning `some`/`none` (element text or `null`) or throwing; if any
lookup rejects, the `Promise.all` rejects and the surrounding catch rethrows
(the model surfaces the first listed error).  A `null` field becomes `""` via
`?.trim() || ""`. -/
def extractPageMetadataV1 (url : Str)
    (title author viewCount likeCount description uploadDate category :
      Except String (Option Str))
    (channelUrl : Except String (Option Str))
    (duration thumbnailUrl : Except String (Option Str)) (nowIso : Str) :
    Except String ExtractedMetadata := do
  let t ← title
  let a ← author
  let vc ← viewCount
  let lc ← likeCount
  let de ← description
  let ud ← uploadDate
  let ca ← category
  let cu ← channelUrl
  let du ← duration
  let th ← thumbnailUrl
  pure
    { id := extractVideoId url
      url := url
      title := jsTrim (t.getD [])
      author := jsTrim (a.getD [])
      viewCount := jsTrim (vc.getD [])
      likeCount := jsTrim (lc.getD [])
      description := jsTrim (de.getD [])
      uploadDate := jsTrim (ud.getD [])
      category := jsTrim (ca.getD [])
      channelUrl := cu.getD []
      duration := jsTrim (du.getD [])
      thumbnailUrl := th.getD []
      language := "en".toList
      publishedDate := jsTrim (ud.getD [])
      scraped_at := nowIso
      tags := [] }

/-! ## Browser session manager cleanup (src/unnamed/part_011 lines 77-91)

`cleanup` closes the context (nulling the field) and then the browser
(nulling the field), guarded only by presence checks — there is no try/catch,
so a rejected `close()` propagates and skips the remaining steps.  The state
tracks which handles are still held; the close calls are oracles. -/

/-- Which browser-engine handles the service still holds. -/
structure BrowserState where
  hasContext : Bool
  hasBrowser : Bool
deriving DecidableEq

/-- The close calls `cleanup` can issue, in the order it issues them. -/
inductive CloseAction where
  | closeContext : CloseAction
  | closeBrowser : CloseAction
deriving DecidableEq

/-- Source: `cleanup` — `if (state.context) { await close; null }` then
`if (state.browser) { await close; null }`; returns the close calls issued
and either the resulting state or the propagated close error. -/
def cleanup (s : BrowserState) (ctxClose browserClose : Except String Unit) :
    List CloseAction × Except String BrowserState :=
  if s.hasContext then
    match ctxClose with
    | Except.error e => ([CloseAction.closeContext], Except.error e)
    | Except.ok _ =>
      if s.hasBrowser then
        match browserClose with
        | Except.error e =>
          ([CloseAction.closeContext, CloseAction.closeBrowser], Except.error e)
        | Except.ok _ =>
          ([CloseAction.closeContext, CloseAction.closeBrowser],
            Except.ok ⟨false, false⟩)
      else ([CloseAction.closeContext], Except.ok ⟨false, false⟩)
  else
    if s.hasBrowser then
      match browserClose with
      | Except.error e => ([CloseAction.closeBrowser], Except.error e)
      | Except.ok _ => ([CloseAction.closeBrowser], Except.ok ⟨false, false⟩)
    else ([], Except.ok s)

/-! # Theorems -/

/-! ## C5: best-effort helper non-propagation -/

/-- The `Promise.allSettled` plus per-click try/catch structure of
`findAndClickButton` never lets an error escape. -/
theorem findAndClickButton_never_errors (cands : List SelectorCandidate) :
    ∃ b, findAndClickButton cands = Except.ok b := by
  induction cands with
  | nil => exact ⟨false, rfl⟩
  | cons c cs ih =>
    match hp : c.probe with
    | Except.error e => simpa [findAndClickButton, hp] using ih
    | Except.ok (visible, enabled) =>
      by_cases hv : visible && enabled
      · match hc : c.clickRes with
        | Except.ok _ => exact ⟨true, by simp [findAndClickButton, hp, hv, hc]⟩
        | Except.error _ => simpa [findAndClickButton, hp, hv, hc] using ih
      · simpa [findAndClickButton, hp, hv] using ih

/-- C5 (counterexample): `scrollToLoadVideos` has no try/catch: a rejected
`page.evaluate` makes the helper's promise reject, contradicting the claim
that every listed page-interaction helper always returns normally. -/
theorem c5_counterexample :
    scrollToLoadVideos (fun _ => Except.error "Execution context was destroyed")
      (fun _ => Except.ok ()) = Except.error "Execution context was destroyed" := rfl

/-- C5 (amended): every listed page-interaction helper except
`scrollToLoadVideos` returns normally no matter how its underlying DOM
queries, evaluates, or clicks fail; `scrollToLoadVideos` alone returns
normally only when its scroll evaluates and waits succeed, and propagates a
rejected evaluate. -/
theorem c5_best_effort_amended :
    (∀ vis click wait, handleConsentDialog vis click wait = Except.ok ()) ∧
    (∀ cands, dismissPopups cands = Except.ok ()) ∧
    (∀ waitSel evalPause, pauseVideo waitSel evalPause = Except.ok ()) ∧
    (∀ cands, expandDescription cands = Except.ok ()) ∧
    (∀ press wait, enableTheaterMode press wait = Except.ok ()) ∧
    (∀ emulate, enableDarkMode emulate = Except.ok ()) ∧
    (∀ addStyle, hideSuggestedContent addStyle = Except.ok ()) ∧
    (∀ evalScroll waitMs, (∀ i, evalScroll i = Except.ok ()) →
      (∀ i, waitMs i = Except.ok ()) →
      scrollToLoadVideos evalScroll waitMs = Except.ok ()) ∧
    (∀ msg, scrollToLoadVideos (fun _ => Except.error msg) (fun _ => Except.ok ()) =
      Except.error msg) := by
  refine ⟨?_, ?_, ?_, ?_, ?_, ?_, ?_, ?_, ?_⟩
  · intro vis click wait
    match vis with
    | Except.error _ => rfl
    | Except.ok v =>
      cases v
      · rfl
      · match click with
        | Except.error _ => rfl
        | Except.ok _ =>
          match wait with
          | Except.error _ => rfl
          | Except.ok _ => rfl
  · intro cands
    obtain ⟨b, hb⟩ := findAndClickButton_never_errors cands
    simp [dismissPopups, hb]
  · intro waitSel evalPause
    match waitSel with
    | Except.error _ => rfl
    | Except.ok _ =>
      match evalPause with
      | Except.error _ => rfl
      | Except.ok _ => rfl
  · intro cands
    obtain ⟨b, hb⟩ := findAndClickButton_never_errors cands
    simp [expandDescription, hb]
  · intro press wait
    match press with
    | Except.error _ => rfl
    | Except.ok _ =>
      match wait with
      | Except.error _ => rfl
      | Except.ok _ => rfl
  · intro emulate
    match emulate with
    | Except.error _ => rfl
    | Except.ok _ => rfl
  · intro addStyle
    match addStyle with
    | Except.error _ => rfl
    | Except.ok _ => rfl
  · intro evalScroll waitMs he hw
    simp only [scrollToLoadVideos, SCROLL_ITERATIONS, scrollLoop, he, hw]
    rfl
  · intro msg
    rfl

/-- C5 (amended, witness): the helpers return normally on concrete oracles,
and the scroll helper succeeds on all-ok oracles. -/
theorem c5_best_effort_amended_witness :
    handleConsentDialog (Except.error "detached") (Except.ok ()) (Except.ok ()) =
      Except.ok () ∧
    scrollToLoadVideos (fun _ => Except.ok ()) (fun _ => Except.ok ()) =
      Except.ok () := by
  refine ⟨c5_best_effort_amended.1 _ _ _, ?_⟩
  exact c5_best_effort_amended.2.2.2.2.2.2.2.1 _ _ (fun _ => rfl) (fun _ => rfl)

/-! ## C8: browser session cleanup -/

/-- C8 (counterexample): a rejected `context.close()` propagates out of
`cleanup` — the claim that `cleanup` never throws is false on the code. -/
theorem c8_counterexample :
    cleanup ⟨true, true⟩ (Except.error "close failed") (Except.ok ()) =
      ([CloseAction.closeContext], Except.error "close failed") := rfl

/-- C8 (amended): `cleanup` issues at most one context close and at most one
browser close, context first (when both handles are held and both closes
succeed the trace is exactly context-then-browser); when both closes succeed
it returns the fully released state; a second call after a successful cleanup
observes the released state, issues no close call, and changes nothing.
Errors raised by a close, however, propagate to the caller. -/
theorem c8_cleanup_amended (s : BrowserState) (ctxClose browserClose : Except String Unit) :
    ((cleanup s ctxClose browserClose).1 = [] ∨
      (cleanup s ctxClose browserClose).1 = [CloseAction.closeContext] ∨
      (cleanup s ctxClose browserClose).1 = [CloseAction.closeBrowser] ∨
      (cleanup s ctxClose browserClose).1 =
        [CloseAction.closeContext, CloseAction.closeBrowser]) ∧
    ((cleanup ⟨true, true⟩ (Except.ok ()) (Except.ok ())).1 =
      [CloseAction.closeContext, CloseAction.closeBrowser]) ∧
    ((cleanup s (Except.ok ()) (Except.ok ())).2 = Except.ok ⟨false, false⟩) ∧
    (∀ s', (cleanup s ctxClose browserClose).2 = Except.ok s' →
      ∀ c' b', cleanup s' c' b' = ([], Except.ok s')) := by
  obtain ⟨hc, hb⟩ := s
  refine ⟨?_, rfl, ?_, ?_⟩
  · cases hc <;> cases hb <;>
      match ctxClose, browserClose with
      | Except.ok _, Except.ok _ => simp [cleanup]
      | Except.ok _, Except.error _ => simp [cleanup]
      | Except.error _, Except.ok _ => simp [cleanup]
      | Except.error _, Except.error _ => simp [cleanup]
  · cases hc <;> cases hb <;> simp [cleanup]
  · intro s' hs' c' b'
    have hrel : s' = ⟨false, false⟩ := by
      cases hc <;> cases hb <;>
          match ctxClose, browserClose with
          | Except.ok _, Except.ok _ => simp_all [cleanup]
          | Except.ok _, Except.error _ => simp_all [cleanup]
          | Except.error _, Except.ok _ => simp_all [cleanup]
          | Except.error _, Except.error _ => simp_all [cleanup]
    subst hrel
    rfl

/-- C8 (amended, witness): concrete instantiation — full state, succeeding
closes; the released state is reached and the second call is a no-op. -/
theorem c8_cleanup_amended_witness :
    (cleanup ⟨true, true⟩ (Except.ok ()) (Except.ok ())).2 =
      Except.ok ⟨false, false⟩ ∧
    cleanup ⟨false, false⟩ (Except.ok ()) (Except.ok ()) =
      ([], Except.ok ⟨false, false⟩) := by
  refine ⟨(c8_cleanup_amended ⟨true, true⟩ (Except.ok ()) (Except.ok ())).2.2.1, ?_⟩
  exact (c8_cleanup_amended ⟨true, true⟩ (Except.ok ()) (Except.ok ())).2.2.2
    ⟨false, false⟩ (by rfl) (Except.ok ()) (Except.ok ())

/-! ## C1, C3, C7: the worker loop -/

/-- In non-interactive mode the loop is fully deterministic: it drives every
offered URL exactly once, sorts each into `success` or `failed`, awaits one
delay between consecutive URLs, and never exits early. -/
theorem scrapeVideos_noninteractive {α : Type} (cfg : LoopConfig)
    (h : cfg.interactive = false) :
    ∀ (items : List (Str × Except String α)) (ds : List Bool),
      scrapeVideos cfg items ds =
        ⟨items.filterMap okEntry, items.filterMap (errEntry cfg),
          items.map Prod.fst, items.length - 1, false⟩ := by
  intro items
  induction items with
  | nil => intro ds; simp [scrapeVideos]
  | cons p rest ih =>
    intro ds
    obtain ⟨u, o⟩ := p
    match o with
    | Except.ok m =>
      simp only [scrapeVideos, h, Bool.false_eq_true, if_false, ih ds]
      cases rest with
      | nil => simp [okEntry, errEntry]
      | cons q qs =>
        simp [okEntry, errEntry]
        omega
    | Except.error e =>
      simp only [scrapeVideos, h, Bool.false_eq_true, if_false, ih ds]
      cases rest with
      | nil => simp [okEntry, errEntry]
      | cons q qs =>
        simp [okEntry, errEntry]
        omega

/-- In interactive mode the operator controls pacing and the backoff delay is
never awaited, whatever the prompt answers. -/
theorem scrapeVideos_interactive_delays {α : Type} (cfg : LoopConfig)
    (h : cfg.interactive = true) :
    ∀ (items : List (Str × Except String α)) (ds : List Bool),
      (scrapeVideos cfg items ds).delays = 0 := by
  intro items
  induction items with
  | nil => intro ds; simp [scrapeVideos]
  | cons p rest ih =>
    intro ds
    obtain ⟨u, o⟩ := p
    match o with
    | Except.ok m =>
      simp only [scrapeVideos, h, if_true]
      split
      · simpa using ih ds.tail
      · simp
    | Except.error e =>
      simp only [scrapeVideos, h, if_true]
      split
      · simpa using ih ds.tail
      · simp

/-- Any run of the loop that does not exit early sorts every offered URL into
exactly one of the two lists, in offer order. -/
theorem scrapeVideos_no_early_exit {α : Type} (cfg : LoopConfig) :
    ∀ (items : List (Str × Except String α)) (ds : List Bool),
      (scrapeVideos cfg items ds).earlyExit = false →
      (scrapeVideos cfg items ds).success = items.filterMap okEntry ∧
      (scrapeVideos cfg items ds).failed = items.filterMap (errEntry cfg) := by
  intro items
  induction items with
  | nil => intro ds _; simp [scrapeVideos]
  | cons p rest ih =>
    intro ds h
    obtain ⟨u, o⟩ := p
    match o with
    | Except.ok m =>
      by_cases hi : cfg.interactive = true
      · by_cases hd : ds.head?.getD true = true
        · have h' : (scrapeVideos cfg rest ds.tail).earlyExit = false := by
            simpa [scrapeVideos, hi, hd] using h
          obtain ⟨h1, h2⟩ := ih ds.tail h'
          simp [scrapeVideos, hi, hd, h1, h2, okEntry, errEntry]
        · exfalso
          simp [scrapeVideos, hi, hd] at h
      · replace hi : cfg.interactive = false := by simpa using hi
        have h' : (scrapeVideos cfg rest ds).earlyExit = false := by
          simpa [scrapeVideos, hi] using h
        obtain ⟨h1, h2⟩ := ih ds h'
        simp [scrapeVideos, hi, h1, h2, okEntry, errEntry]
    | Except.error e =>
      by_cases hi : cfg.interactive = true
      · by_cases hd : ds.head?.getD true = true
        · have h' : (scrapeVideos cfg rest ds.tail).earlyExit = false := by
            simpa [scrapeVideos, hi, hd] using h
          obtain ⟨h1, h2⟩ := ih ds.tail h'
          simp [scrapeVideos, hi, hd, h1, h2, okEntry, errEntry]
        · exfalso
          simp [scrapeVideos, hi, hd] at h
      · replace hi : cfg.interactive = false := by simpa using hi
        have h' : (scrapeVideos cfg rest ds).earlyExit = false := by
          simpa [scrapeVideos, hi] using h
        obtain ⟨h1, h2⟩ := ih ds h'
        simp [scrapeVideos, hi, h1, h2, okEntry, errEntry]

/-- Each offered URL contributes to exactly one of the two partitions. -/
theorem okEntry_errEntry_length {α : Type} (cfg : LoopConfig) :
    ∀ items : List (Str × Except String α),
      (items.filterMap okEntry).length + (items.filterMap (errEntry cfg)).length =
        items.length := by
  intro items
  induction items with
  | nil => simp
  | cons p rest ih =>
    obtain ⟨u, o⟩ := p
    match o with
    | Except.ok m => simp [okEntry, errEntry]; omega
    | Except.error e => simp [okEntry, errEntry]; omega

/-- C1: in every run that completes without operator-triggered early exit,
`success` and `failed` partition the offered URLs — each offered URL
contributes exactly one entry to exactly one list — and
`summary.total_attempted` equals the number of discovered URLs, which equals
`success.length + failed.length`. -/
theorem c1_partition_complete {α : Type} (cfg : LoopConfig)
    (items : List (Str × Except String α)) (ds : List Bool) (durationMs : Nat)
    (h : (scrapeVideos cfg items ds).earlyExit = false) :
    (scrapeYouTubeChannelRun cfg items ds durationMs).success =
      items.filterMap okEntry ∧
    (scrapeYouTubeChannelRun cfg items ds durationMs).failed =
      items.filterMap (errEntry cfg) ∧
    (∀ p : Str × Except String α, (okEntry p).isSome → errEntry cfg p = none) ∧
    (∀ p : Str × Except String α, (errEntry cfg p).isSome → okEntry p = none) ∧
    (scrapeYouTubeChannelRun cfg items ds durationMs).summary.total_attempted =
      items.length ∧
    (scrapeYouTubeChannelRun cfg items ds durationMs).summary.total_attempted =
      (scrapeYouTubeChannelRun cfg items ds durationMs).success.length +
        (scrapeYouTubeChannelRun cfg items ds durationMs).failed.length := by
  obtain ⟨h1, h2⟩ := scrapeVideos_no_early_exit cfg items ds h
  refine ⟨h1, h2, ?_, ?_, rfl, ?_⟩
  · intro ⟨u, o⟩ hp
    match o with
    | Except.ok m => rfl
    | Except.error e => simp [okEntry] at hp
  · intro ⟨u, o⟩ hp
    match o with
    | Except.ok m => simp [errEntry] at hp
    | Except.error e => rfl
  · show items.length = _
    simp only [scrapeYouTubeChannelRun, h1, h2]
    exact (okEntry_errEntry_length cfg items).symm

/-- C1 (witness): a two-URL non-interactive run — one success, one failure. -/
theorem c1_partition_complete_witness :
    ((scrapeVideos (α := Nat) ⟨false, 3⟩
        [("https://w/watch?v=a".toList, Except.ok 7),
          ("https://w/watch?v=b".toList, Except.error "timeout")] []).earlyExit =
      false) ∧
    (scrapeYouTubeChannelRun (α := Nat) ⟨false, 3⟩
        [("https://w/watch?v=a".toList, Except.ok 7),
          ("https://w/watch?v=b".toList, Except.error "timeout")] [] 1000).summary.total_attempted =
      2 := by
  refine ⟨by decide, ?_⟩
  have := c1_partition_complete (α := Nat) ⟨false, 3⟩
    [("https://w/watch?v=a".toList, Except.ok 7),
      ("https://w/watch?v=b".toList, Except.error "timeout")] [] 1000 (by decide)
  exact this.2.2.2.2.1

/-- C3: for every URL whose pipeline throws, the non-interactive worker loop
appends exactly one `FailedVideo` record carrying the URL, the thrown error's
message and `retries_attempted = config.maxRetries` (the `errEntry` image of
the offered list), drives each offered URL's pipeline exactly once
(`attempted` lists every offered URL once, in order), and continues with the
next URL rather than aborting the run (the loop reaches the end of the list:
no early exit, and later URLs still appear in `attempted`). -/
theorem c3_failed_video_records {α : Type} (cfg : LoopConfig)
    (items : List (Str × Except String α)) (ds : List Bool)
    (h : cfg.interactive = false) :
    (scrapeVideos cfg items ds).failed = items.filterMap (errEntry cfg) ∧
    (scrapeVideos cfg items ds).attempted = items.map Prod.fst ∧
    (scrapeVideos cfg items ds).earlyExit = false := by
  rw [scrapeVideos_noninteractive cfg h items ds]
  exact ⟨rfl, rfl, rfl⟩

/-- C3 (witness): a run whose middle URL throws — the failed list holds
exactly its record with `retries_attempted = maxRetries = 3`, and all three
URLs were attempted. -/
theorem c3_failed_video_records_witness :
    (scrapeVideos (α := Nat) ⟨false, 3⟩
        [("u1".toList, Except.ok 1), ("u2".toList, Except.error "boom"),
          ("u3".toList, Except.ok 3)] []).failed =
      [⟨"u2".toList, "boom", 3⟩] ∧
    (scrapeVideos (α := Nat) ⟨false, 3⟩
        [("u1".toList, Except.ok 1), ("u2".toList, Except.error "boom"),
          ("u3".toList, Except.ok 3)] []).attempted =
      ["u1".toList, "u2".toList, "u3".toList] := by
  have := c3_failed_video_records (α := Nat) ⟨false, 3⟩
    [("u1".toList, Except.ok 1), ("u2".toList, Except.error "boom"),
      ("u3".toList, Except.ok 3)] [] rfl
  exact ⟨by rw [this.1]; decide, by rw [this.2.1]; decide⟩

/-- C7: a non-interactive run over `n` discovered URLs awaits `delay()`
exactly `n - 1` times (`max(n-1, 0)` — never after the last URL); an
interactive run awaits it zero times; and each `delay()` waits
`baseDelay + jitter` with jitter drawn from `[0, 500)` — bounded uniformly,
with no per-call exponential growth. -/
theorem c7_backoff_delays {α : Type} (cfg : LoopConfig)
    (items : List (Str × Except String α)) (ds : List Bool) :
    (cfg.interactive = false →
      (scrapeVideos cfg items ds).delays = items.length - 1) ∧
    (cfg.interactive = true → (scrapeVideos cfg items ds).delays = 0) ∧
    (∀ b r : ℚ, 0 ≤ r → r < 1 →
      b ≤ delayDuration b r ∧ delayDuration b r < b + 500) := by
  refine ⟨?_, ?_, ?_⟩
  · intro h
    rw [scrapeVideos_noninteractive cfg h items ds]
  · intro h
    exact scrapeVideos_interactive_delays cfg h items ds
  · intro b r hr0 hr1
    constructor
    · have : (0 : ℚ) ≤ r * 500 := by positivity
      simp only [delayDuration]
      linarith
    · have : r * 500 < 500 := by nlinarith
      simp only [delayDuration]
      linarith

/-- C7 (witness): three URLs non-interactively give two delays; two URLs
interactively give zero; a concrete jitter draw stays within its band. -/
theorem c7_backoff_delays_witness :
    (scrapeVideos (α := Nat) ⟨false, 3⟩
        [("u1".toList, Except.ok 1), ("u2".toList, Except.ok 2),
          ("u3".toList, Except.ok 3)] []).delays = 2 ∧
    (scrapeVideos (α := Nat) ⟨true, 3⟩
        [("u1".toList, Except.ok 1), ("u2".toList, Except.ok 2)]
        [true, true]).delays = 0 ∧
    ((1000 : ℚ) ≤ delayDuration 1000 (1 / 2) ∧
      delayDuration 1000 (1 / 2) < 1000 + 500) := by
  refine ⟨?_, ?_, ?_⟩
  · exact (c7_backoff_delays (α := Nat) ⟨false, 3⟩
      [("u1".toList, Except.ok 1), ("u2".toList, Except.ok 2),
        ("u3".toList, Except.ok 3)] []).1 rfl
  · exact (c7_backoff_delays (α := Nat) ⟨true, 3⟩
      [("u1".toList, Except.ok 1), ("u2".toList, Except.ok 2)] [true, true]).2.1 rfl
  · exact (c7_backoff_delays (α := Nat) ⟨false, 3⟩ [] []).2.2 1000 (1 / 2)
      (by norm_num) (by norm_num)

/-! ## C9: filename derivation is a pure function of date and video id -/

/-- C9: `generateFileName` is deterministic and depends only on
`uploadDate`, `datePublished` and the video id extracted from
`scraped_url`: any two metadata records agreeing on those three yield the
same filename regardless of every other field; and whenever the chosen date
is unparseable (the date engine yields nothing, or nothing usable), the
filename is the bare video id. -/
theorem c9_filename_pure (dateFmt : Str → Option Str) (m m2 : VideoMetadataR)
    (hu : m.uploadDate = m2.uploadDate)
    (hp : m.datePublished = m2.datePublished)
    (hid : extractVideoIdOrUnknown m.scraped_url =
      extractVideoIdOrUnknown m2.scraped_url) :
    generateFileName dateFmt m = generateFileName dateFmt m2 ∧
    (∀ mm : VideoMetadataR, (chooseDateString mm).bind dateFmt = none →
      generateFileName dateFmt mm = extractVideoIdOrUnknown mm.scraped_url) ∧
    (∀ (mm : VideoMetadataR) (d : Str),
      (chooseDateString mm).bind dateFmt = some d → d ≠ [] →
      generateFileName dateFmt mm =
        d ++ ' ' :: extractVideoIdOrUnknown mm.scraped_url) := by
  have hch : chooseDateString m = chooseDateString m2 := by
    simp only [chooseDateString, hu, hp]
  refine ⟨?_, ?_, ?_⟩
  · simp only [generateFileName, hch, hid]
  · intro mm hnone
    simp only [generateFileName, hnone]
  · intro mm d hsome hne
    simp only [generateFileName, hsome, if_neg hne]

/-- C9 (witness): two records agreeing on the three inputs but differing in
title, description and scrape time map to the same filename. -/
theorem c9_filename_pure_witness :
    generateFileName (fun _ => some ("25-01-01".toList))
        ⟨[], [], "A".toList, "d1".toList, [], [], [], [], [], [], [],
          "2025-01-01".toList, [], [], [], "w?v=abc".toList, "t1".toList, none⟩ =
      generateFileName (fun _ => some ("25-01-01".toList))
        ⟨[], [], "B".toList, "d2".toList, [], [], [], [], [], [], [],
          "2025-01-01".toList, [], [], [], "x?v=abc&t=1".toList, "t2".toList, none⟩ := by
  exact (c9_filename_pure (fun _ => some ("25-01-01".toList))
    ⟨[], [], "A".toList, "d1".toList, [], [], [], [], [], [], [],
      "2025-01-01".toList, [], [], [], "w?v=abc".toList, "t1".toList, none⟩
    ⟨[], [], "B".toList, "d2".toList, [], [], [], [], [], [], [],
      "2025-01-01".toList, [], [], [], "x?v=abc&t=1".toList, "t2".toList, none⟩
    (by decide) (by decide) (by decide)).1

/-! ## C2: video URL discovery -/

/-- The JS `Set` fold keeps exactly the first occurrence of each value: it
equals the specification-side first-seen de-duplication of whatever part of
the input is not already in the accumulator. -/
theorem jsSetToArray_foldl (l : List Str) :
    ∀ acc : List Str,
      List.foldl (fun acc x => if x ∈ acc then acc else acc ++ [x]) acc l =
        acc ++ dedupFirstSeen (l.filter (fun y => decide (y ∉ acc))) := by
  induction l with
  | nil => intro acc; simp [dedupFirstSeen]
  | cons x xs ih =>
    intro acc
    by_cases hx : x ∈ acc
    · simp only [List.foldl_cons, if_pos hx]
      rw [ih acc]
      congr 2
      simp [List.filter_cons, hx]
    · simp only [List.foldl_cons, if_neg hx]
      rw [ih (acc ++ [x]), List.append_assoc]
      congr 1
      rw [show List.filter (fun y => decide (y ∉ acc)) (x :: xs) =
            x :: List.filter (fun y => decide (y ∉ acc)) xs by
          simp [List.filter_cons, hx]]
      rw [dedupFirstSeen, List.filter_filter]
      have hpred : ∀ y ∈ xs,
          (decide (y ∉ acc ++ [x]) : Bool) =
            (decide (y ≠ x) && decide (y ∉ acc)) := by
        intro y _
        by_cases h1 : y = x <;> by_cases h2 : y ∈ acc <;> simp [h1, h2]
      rw [List.filter_congr hpred]
      rfl

/-- `[...new Set(xs)]` is first-seen de-duplication. -/
theorem jsSetToArray_eq_dedupFirstSeen (l : List Str) :
    jsSetToArray l = dedupFirstSeen l := by
  rw [jsSetToArray, jsSetToArray_foldl l []]
  simp

/-- Membership is preserved by first-seen de-duplication. -/
theorem mem_dedupFirstSeen : ∀ (l : List Str) (y : Str),
    y ∈ dedupFirstSeen l ↔ y ∈ l := by
  intro l
  induction l using dedupFirstSeen.induct with
  | case1 => intro y; simp [dedupFirstSeen]
  | case2 x xs ih =>
    intro y
    rw [dedupFirstSeen, List.mem_cons, ih y, List.mem_filter]
    by_cases hyx : y = x <;> simp [hyx]

/-- First-seen de-duplication yields a duplicate-free list. -/
theorem dedupFirstSeen_nodup : ∀ l : List Str, (dedupFirstSeen l).Nodup := by
  intro l
  induction l using dedupFirstSeen.induct with
  | case1 => simp [dedupFirstSeen]
  | case2 x xs ih =>
    rw [dedupFirstSeen]
    refine List.nodup_cons.mpr ⟨?_, ih⟩
    intro hmem
    have := (mem_dedupFirstSeen _ x).mp hmem
    simp [List.mem_filter] at this

/-- C2: URL discovery returns exactly the slice `[k, k+n)` of the first-seen
de-duplicated, tracking-stripped URL list; its length is
`min n (max 0 (t - k))` for `t` the number of distinct videos (Nat
subtraction models the `max 0`); the distinct list is duplicate-free.  In
particular fewer than `k + n` distinct URLs yield just what exists, and zero
distinct URLs yield the empty list — never an error (the function is total).
-/
theorem c2_discover_video_urls (hrefs : List Str) (k n : Nat) :
    getVideoUrls hrefs k n =
      ((dedupFirstSeen (hrefs.map stripAfterAmp)).drop k).take n ∧
    (getVideoUrls hrefs k n).length =
      min n ((dedupFirstSeen (hrefs.map stripAfterAmp)).length - k) ∧
    (dedupFirstSeen (hrefs.map stripAfterAmp)).Nodup := by
  have hmain : getVideoUrls hrefs k n =
      ((dedupFirstSeen (hrefs.map stripAfterAmp)).drop k).take n := by
    simp only [getVideoUrls, jsSliceNat,
      jsSetToArray_eq_dedupFirstSeen, Nat.add_sub_cancel_left]
  refine ⟨hmain, ?_, dedupFirstSeen_nodup _⟩
  rw [hmain]
  simp [List.length_take, List.length_drop]

/-! ## C10: total, regex-faithful video-id extraction -/

/-- Unfolding lemma for the regex scan on at least three characters. -/
theorem matchVParam_cons3 (c d e : Char) (tail : Str) :
    matchVParam (c :: d :: e :: tail) =
      if c = '?' ∨ c = '&' then
        (if d = 'v' ∧ e = '=' then
          some (tail.takeWhile fun x => x != '&' && x != '#')
         else matchVParam (d :: e :: tail))
      else matchVParam (d :: e :: tail) := rfl

/-- A single character never matches. -/
theorem matchVParam_one (c : Char) : matchVParam [c] = none := by
  simp [matchVParam]

/-- Two characters never match. -/
theorem matchVParam_two (c d : Char) : matchVParam [c, d] = none := by
  simp [matchVParam]

/-- Skipping a character that is not `?`/`&`. -/
theorem matchVParam_cons_notq (c : Char) (rest : Str)
    (hc : ¬(c = '?' ∨ c = '&')) :
    matchVParam (c :: rest) = matchVParam rest := by
  rcases rest with _ | ⟨d, _ | ⟨e, tl⟩⟩
  · simp [matchVParam, hc]
  · rw [matchVParam_two, matchVParam_one]
  · rw [matchVParam_cons3, if_neg hc]

/-- A successful match always captures a `takeWhile` stopping at `&`/`#`. -/
theorem matchVParam_some_shape :
    ∀ s t : Str, matchVParam s = some t →
      ∃ tail : Str, t = tail.takeWhile fun x => x != '&' && x != '#' := by
  intro s
  induction s using matchVParam.induct with
  | case1 => intro t ht; simp [matchVParam] at ht
  | case2 c hc d e tail hde =>
    intro t ht
    rw [matchVParam_cons3, if_pos hc, if_pos hde] at ht
    exact ⟨tail, (Option.some_inj.mp ht).symm⟩
  | case3 c hc d e tail hde ih =>
    intro t ht
    rw [matchVParam_cons3, if_pos hc, if_neg hde] at ht
    exact ih t ht
  | case4 c rest hc hshape ih =>
    intro t ht
    rcases rest with _ | ⟨d, _ | ⟨e, tl⟩⟩
    · rw [matchVParam_one] at ht; exact absurd ht (by simp)
    · rw [matchVParam_two] at ht; exact absurd ht (by simp)
    · exact (hshape d e tl rfl).elim
  | case5 c rest hc ih =>
    intro t ht
    rw [matchVParam_cons_notq c rest hc] at ht
    exact ih t ht

/-- Prepending a character preserves the existence of a match. -/
theorem hasVParam_cons (c : Char) (rest : Str) (h : hasVParam rest = true) :
    hasVParam (c :: rest) = true := by
  unfold hasVParam at h ⊢
  rcases rest with _ | ⟨d, _ | ⟨e, tl⟩⟩
  · simp [matchVParam] at h
  · rw [matchVParam_one] at h; exact absurd h (by simp)
  · by_cases hc : c = '?' ∨ c = '&'
    · rw [matchVParam_cons3, if_pos hc]
      by_cases hde : d = 'v' ∧ e = '='
      · rw [if_pos hde]; rfl
      · rw [if_neg hde]; exact h
    · rw [matchVParam_cons_notq c _ hc]; exact h

/-- The other direction: a cons with no match means the tail has none. -/
theorem hasVParam_cons_false (c : Char) (rest : Str)
    (h : hasVParam (c :: rest) = false) : hasVParam rest = false := by
  cases hr : hasVParam rest
  · rfl
  · rw [hasVParam_cons c rest hr] at h
    exact absurd h (by simp)

/-- Any embedded `?v=`/`&v=` makes the regex match. -/
theorem hasVParam_append (a : Str) (q : Char) (hq : q = '?' ∨ q = '&')
    (rest : Str) : hasVParam (a ++ q :: 'v' :: '=' :: rest) = true := by
  induction a with
  | nil =>
    show hasVParam (q :: 'v' :: '=' :: rest) = true
    unfold hasVParam
    rw [matchVParam_cons3, if_pos hq, if_pos ⟨rfl, rfl⟩]
    rfl
  | cons x a2 ih =>
    exact hasVParam_cons x _ ih

/-- A match implies the string decomposes around a `?v=`/`&v=`. -/
theorem hasVParam_decomp :
    ∀ s : Str, hasVParam s = true →
      ∃ (a : Str) (q : Char) (rest : Str),
        (q = '?' ∨ q = '&') ∧ s = a ++ q :: 'v' :: '=' :: rest := by
  intro s
  induction s using matchVParam.induct with
  | case1 => intro h; simp [hasVParam, matchVParam] at h
  | case2 c hc d e tail hde =>
    intro _
    exact ⟨[], c, tail, hc, by simp [hde.1, hde.2]⟩
  | case3 c hc d e tail hde ih =>
    intro h
    have h2 : hasVParam (d :: e :: tail) = true := by
      unfold hasVParam at h ⊢
      rwa [matchVParam_cons3, if_pos hc, if_neg hde] at h
    obtain ⟨a, q, rest, hq, heq⟩ := ih h2
    exact ⟨c :: a, q, rest, hq, by simp [heq]⟩
  | case4 c rest hc hshape ih =>
    intro h
    rcases rest with _ | ⟨d, _ | ⟨e, tl⟩⟩
    · rw [hasVParam] at h
      rw [matchVParam_one] at h
      exact absurd h (by simp)
    · rw [hasVParam] at h
      rw [matchVParam_two] at h
      exact absurd h (by simp)
    · exact (hshape d e tl rfl).elim
  | case5 c rest hc ih =>
    intro h
    have h2 : hasVParam rest = true := by
      unfold hasVParam at h ⊢
      rwa [matchVParam_cons_notq c rest hc] at h
    obtain ⟨a, q, r2, hq, heq⟩ := ih h2
    exact ⟨c :: a, q, r2, hq, by simp [heq]⟩

/-- When nothing before it matches, the first `?v=`/`&v=` wins and the
capture is everything up to the next `&` or `#`. -/
theorem matchVParam_first :
    ∀ a : Str, hasVParam a = false →
      ∀ q : Char, (q = '?' ∨ q = '&') → ∀ rest : Str,
        matchVParam (a ++ q :: 'v' :: '=' :: rest) =
          some (rest.takeWhile fun x => x != '&' && x != '#') := by
  intro a
  induction a with
  | nil =>
    intro _ q hq rest
    show matchVParam (q :: 'v' :: '=' :: rest) = _
    rw [matchVParam_cons3, if_pos hq, if_pos ⟨rfl, rfl⟩]
  | cons x a2 ih =>
    intro ha q hq rest
    have ha2 : hasVParam a2 = false := hasVParam_cons_false x a2 ha
    show matchVParam (x :: (a2 ++ q :: 'v' :: '=' :: rest)) = _
    by_cases hx : x = '?' ∨ x = '&'
    · rcases a2 with _ | ⟨d, _ | ⟨e, a3⟩⟩
      · have hqv : ¬(q = 'v' ∧ 'v' = '=') := by
          rcases hq with h | h <;> subst h <;> simp
        simp only [List.nil_append]
        rw [matchVParam_cons3, if_pos hx, if_neg hqv]
        simpa using ih ha2 q hq rest
      · have hdq : ¬(d = 'v' ∧ q = '=') := by
          rcases hq with h | h <;> subst h <;> simp
        simp only [List.singleton_append]
        rw [matchVParam_cons3, if_pos hx, if_neg hdq]
        simpa using ih ha2 q hq rest
      · have hde : ¬(d = 'v' ∧ e = '=') := by
          intro hde
          have htrue : hasVParam (x :: d :: e :: a3) = true := by
            unfold hasVParam
            rw [matchVParam_cons3, if_pos hx, if_pos hde]
            rfl
          rw [htrue] at ha
          exact absurd ha (by simp)
        simp only [List.cons_append]
        rw [matchVParam_cons3, if_pos hx, if_neg hde]
        simpa using ih ha2 q hq rest
    · rw [matchVParam_cons_notq x _ hx]
      exact ih ha2 q hq rest

/-- C10: `extractVideoId` is total (a pure function — it cannot throw); when
the URL contains a `v` query parameter introduced by `?` or `&` (equivalently
when the regex matches) the result is exactly the first such parameter's
value — everything up to the next `&` or `#`, hence containing neither — and
when no `v` parameter exists the result is the empty string. -/
theorem c10_extract_video_id_total (s : Str) :
    ('&' ∉ extractVideoId s ∧ '#' ∉ extractVideoId s) ∧
    (hasVParam s = false → extractVideoId s = []) ∧
    (hasVParam s = true ↔
      ∃ (a : Str) (q : Char) (rest : Str),
        (q = '?' ∨ q = '&') ∧ s = a ++ q :: 'v' :: '=' :: rest) ∧
    (∀ (a : Str) (q : Char) (rest : Str), (q = '?' ∨ q = '&') →
      s = a ++ q :: 'v' :: '=' :: rest → hasVParam a = false →
      extractVideoId s = rest.takeWhile fun x => x != '&' && x != '#') := by
  refine ⟨?_, ?_, ⟨hasVParam_decomp s, ?_⟩, ?_⟩
  · cases hm : matchVParam s with
    | none => simp [extractVideoId, hm]
    | some t =>
      obtain ⟨tail, ht⟩ := matchVParam_some_shape s t hm
      constructor
      · intro hmem
        rw [extractVideoId, hm] at hmem
        have := List.mem_takeWhile_imp (ht ▸ hmem)
        simp at this
      · intro hmem
        rw [extractVideoId, hm] at hmem
        have := List.mem_takeWhile_imp (ht ▸ hmem)
        simp at this
  · intro h
    cases hm : matchVParam s with
    | none => simp [extractVideoId, hm]
    | some t => rw [hasVParam, hm] at h; exact absurd h (by simp)
  · rintro ⟨a, q, rest, hq, heq⟩
    rw [heq]
    exact hasVParam_append a q hq rest
  · intro a q rest hq heq ha
    rw [heq, extractVideoId, matchVParam_first a ha q hq rest]
    rfl

/-- C10 (witness): a URL with trailing parameters yields exactly the id; a
URL without any `v` parameter has no match. -/
theorem c10_extract_video_id_total_witness :
    hasVParam ("https://www.youtube.com/watch".toList) = false ∧
    extractVideoId ("https://www.youtube.com/watch?v=dQw4w9WgXcQ&t=42s".toList) =
      "dQw4w9WgXcQ".toList := by
  constructor
  · decide
  · have h := (c10_extract_video_id_total
        ("https://www.youtube.com/watch?v=dQw4w9WgXcQ&t=42s".toList)).2.2.2
      ("https://www.youtube.com/watch".toList) '?' ("dQw4w9WgXcQ&t=42s".toList)
      (Or.inl rfl) (by decide) (by decide)
    rw [h]
    decide

/-! ## C6: metadata extraction field tolerance -/

/-- C6 (counterexample): on a page where every selector is absent, the
extractor returns normally, but the `language` field of the returned record
is `"unknown"`, not the empty string — so "each individual field that is
absent from the page yields the empty string" is false as stated. -/
theorem c6_counterexample :
    (extractPageMetadataV2 [] (Except.ok ⟨fun _ => none, fun _ _ => none⟩)
        (Except.ok []) (Except.ok none) []).map ExtractedMetadata.language =
      Except.ok ("unknown".toList) ∧
    ("unknown".toList : Str) ≠ [] := by
  exact ⟨rfl, by decide⟩

/-- C6 (amended): when the page evaluation succeeds, extraction never throws,
and each individual field whose selectors are all absent yields the empty
string — except `language`, which defaults to `"unknown"`, and `tags`, which
defaults to the empty list; the extractor propagates an error to the caller
only when the underlying page evaluation itself throws (and in the
`Promise.all` variant, when one of its field lookups throws; there a `null`
field also yields the empty string). -/
theorem c6_extractor_amended (url : Str) (d : DomModel)
    (tagsDom : Except String (List (Option Str)))
    (langDom : Except String (Option Str)) (nowIso : Str) :
    (∃ r, extractPageMetadataV2 url (Except.ok d) tagsDom langDom nowIso =
      Except.ok r) ∧
    (∀ e, extractPageMetadataV2 url (Except.error e) tagsDom langDom nowIso =
      Except.error e) ∧
    (d.text "h1[data-e2e=\"video-title\"]" = none →
      d.text "h1.ytd-video-primary-info-renderer" = none →
      d.text "h1.title" = none → d.text "h1" = none →
      (extractPageMetadataV2 url (Except.ok d) tagsDom langDom nowIso).map
        ExtractedMetadata.title = Except.ok []) ∧
    (d.text "#description-text" = none → d.text "#description" = none →
      d.text "#description-inline-expander" = none →
      d.text ".description" = none →
      d.text "[data-e2e=\"video-description\"]" = none →
      d.text "#watch-description-text" = none →
      (extractPageMetadataV2 url (Except.ok d) tagsDom langDom nowIso).map
        ExtractedMetadata.description = Except.ok []) ∧
    (d.text "#owner-name a" = none → d.text ".channel-name" = none →
      d.text "[data-e2e=\"video-author\"]" = none →
      (extractPageMetadataV2 url (Except.ok d) tagsDom langDom nowIso).map
        ExtractedMetadata.author = Except.ok []) ∧
    (d.attr "#owner-name a" "href" = none →
      d.attr ".channel-name a" "href" = none →
      (extractPageMetadataV2 url (Except.ok d) tagsDom langDom nowIso).map
        ExtractedMetadata.channelUrl = Except.ok []) ∧
    (d.text "#info-text" = none → d.text ".view-count" = none →
      d.text "[data-e2e=\"video-view-count\"]" = none →
      (extractPageMetadataV2 url (Except.ok d) tagsDom langDom nowIso).map
        ExtractedMetadata.viewCount = Except.ok []) ∧
    (d.text "button[aria-label*=\"like\"] span[role=\"text\"]" = none →
      d.text ".like-count" = none →
      (extractPageMetadataV2 url (Except.ok d) tagsDom langDom nowIso).map
        ExtractedMetadata.likeCount = Except.ok []) ∧
    (d.text "#info-text" = none → d.text ".date" = none →
      d.text "[data-e2e=\"video-publish-date\"]" = none →
      (extractPageMetadataV2 url (Except.ok d) tagsDom langDom nowIso).map
        ExtractedMetadata.publishedDate = Except.ok []) ∧
    (d.text ".ytp-time-duration" = none →
      d.attr "meta[itemprop=\"duration\"]" "content" = none →
      (extractPageMetadataV2 url (Except.ok d) tagsDom langDom nowIso).map
        ExtractedMetadata.duration = Except.ok []) ∧
    (d.attr "link[itemprop=\"thumbnailUrl\"]" "href" = none →
      d.attr "meta[property=\"og:image\"]" "content" = none →
      (extractPageMetadataV2 url (Except.ok d) tagsDom langDom nowIso).map
        ExtractedMetadata.thumbnailUrl = Except.ok []) ∧
    (d.attr "meta[itemprop=\"genre\"]" "content" = none →
      d.attr "meta[property=\"og:video:genre\"]" "content" = none →
      (extractPageMetadataV2 url (Except.ok d) tagsDom langDom nowIso).map
        ExtractedMetadata.category = Except.ok []) ∧
    (d.attr "meta[itemprop=\"uploadDate\"]" "content" = none →
      d.attr "meta[property=\"og:video:release_date\"]" "content" = none →
      (extractPageMetadataV2 url (Except.ok d) tagsDom langDom nowIso).map
        ExtractedMetadata.uploadDate = Except.ok []) ∧
    (langDom = Except.ok none →
      (extractPageMetadataV2 url (Except.ok d) tagsDom langDom nowIso).map
        ExtractedMetadata.language = Except.ok ("unknown".toList)) ∧
    (∀ e, tagsDom = Except.error e →
      (extractPageMetadataV2 url (Except.ok d) tagsDom langDom nowIso).map
        ExtractedMetadata.tags = Except.ok []) ∧
    (∀ a vc lc de ud ca cu du th : Option Str,
      (extractPageMetadataV1 url (Except.ok none) (Except.ok a) (Except.ok vc)
          (Except.ok lc) (Except.ok de) (Except.ok ud) (Except.ok ca)
          (Except.ok cu) (Except.ok du) (Except.ok th) nowIso).map
        ExtractedMetadata.title = Except.ok []) ∧
    (∀ (e : String) (a vc lc de ud ca cu du th : Option Str),
      extractPageMetadataV1 url (Except.error e) (Except.ok a) (Except.ok vc)
          (Except.ok lc) (Except.ok de) (Except.ok ud) (Except.ok ca)
          (Except.ok cu) (Except.ok du) (Except.ok th) nowIso =
        Except.error e) := by
  refine ⟨⟨_, rfl⟩, fun e => rfl, ?_, ?_, ?_, ?_, ?_, ?_, ?_, ?_, ?_, ?_, ?_,
    ?_, ?_, ?_, ?_⟩
  · intro h1 h2 h3 h4
    simp [extractPageMetadataV2, getTextContentM, orElseStr, h1, h2, h3, h4,
      Except.map]
  · intro h1 h2 h3 h4 h5 h6
    simp [extractPageMetadataV2, getTextContentM, orElseStr, h1, h2, h3, h4,
      h5, h6, Except.map, trimDescription]
  · intro h1 h2 h3
    simp [extractPageMetadataV2, getTextContentM, orElseStr, h1, h2, h3,
      Except.map]
  · intro h1 h2
    simp [extractPageMetadataV2, getAttributeM, orElseStr, h1, h2, Except.map]
  · intro h1 h2 h3
    simp [extractPageMetadataV2, getTextContentM, orElseStr, h1, h2, h3,
      Except.map]
  · intro h1 h2
    simp [extractPageMetadataV2, getTextContentM, orElseStr, h1, h2, Except.map]
  · intro h1 h2 h3
    simp [extractPageMetadataV2, getTextContentM, orElseStr, h1, h2, h3,
      Except.map]
  · intro h1 h2
    simp [extractPageMetadataV2, getTextContentM, getAttributeM, orElseStr,
      h1, h2, Except.map]
  · intro h1 h2
    simp [extractPageMetadataV2, getAttributeM, orElseStr, h1, h2, Except.map]
  · intro h1 h2
    simp [extractPageMetadataV2, getAttributeM, orElseStr, h1, h2, Except.map]
  · intro h1 h2
    simp [extractPageMetadataV2, getAttributeM, orElseStr, h1, h2, Except.map]
  · intro hl
    simp [extractPageMetadataV2, extractLanguageM, hl, Except.map]
  · intro e ht
    simp [extractPageMetadataV2, extractTagsM, ht, Except.map]
  · intro a vc lc de ud ca cu du th
    rfl
  · intro e a vc lc de ud ca cu du th
    rfl

/-- C6 (amended, witness): the all-absent DOM satisfies every hypothesis and
every absent text field is the empty string while `language` is
`"unknown"`. -/
theorem c6_extractor_amended_witness :
    (extractPageMetadataV2 [] (Except.ok ⟨fun _ => none, fun _ _ => none⟩)
        (Except.error "ctx") (Except.ok none) []).map
      ExtractedMetadata.title = Except.ok [] ∧
    (extractPageMetadataV2 [] (Except.ok ⟨fun _ => none, fun _ _ => none⟩)
        (Except.error "ctx") (Except.ok none) []).map
      ExtractedMetadata.language = Except.ok ("unknown".toList) := by
  constructor
  · exact (c6_extractor_amended [] ⟨fun _ => none, fun _ _ => none⟩
      (Except.error "ctx") (Except.ok none) []).2.2.1 rfl rfl rfl rfl
  · exact (c6_extractor_amended [] ⟨fun _ => none, fun _ _ => none⟩
      (Except.error "ctx") (Except.ok none) []).2.2.2.2.2.2.2.2.2.2.2.2.2.1 rfl

/-! ## C4: description trimming -/

/-- The Bool leading-segment test matches its existential description. -/
theorem startsWithB_iff (p : Str) : ∀ s : Str,
    startsWithB p s = true ↔ ∃ t, s = p ++ t := by
  induction p with
  | nil => intro s; simp [startsWithB]
  | cons x ps ih =>
    intro s
    cases s with
    | nil => simp [startsWithB]
    | cons c cs =>
      simp only [startsWithB, Bool.and_eq_true, beq_iff_eq]
      constructor
      · rintro ⟨hx, h⟩
        obtain ⟨t, ht⟩ := (ih cs).mp h
        exact ⟨t, by simp [hx, ht]⟩
      · rintro ⟨t, ht⟩
        injection ht with h1 h2
        exact ⟨h1.symm, (ih cs).mpr ⟨t, h2⟩⟩

/-- The Bool substring test matches the occurrence predicate. -/
theorem containsSub_iff (p : Str) : ∀ s : Str,
    containsSub p s = true ↔ occursIn p s := by
  intro s
  induction s with
  | nil =>
    rw [containsSub, startsWithB_iff]
    constructor
    · rintro ⟨t, ht⟩
      exact ⟨[], t, ht⟩
    · rintro ⟨u, v, huv⟩
      obtain ⟨h1, h2⟩ := List.append_eq_nil.mp huv.symm
      obtain ⟨h3, h4⟩ := List.append_eq_nil.mp h1
      exact ⟨[], by simp [h4]⟩
  | cons c cs ih =>
    rw [containsSub, Bool.or_eq_true, startsWithB_iff, ih]
    constructor
    · rintro (⟨t, ht⟩ | ⟨u, v, huv⟩)
      · exact ⟨[], t, by simpa using ht⟩
      · exact ⟨c :: u, v, by simp [huv]⟩
    · rintro ⟨u, v, huv⟩
      cases u with
      | nil => exact Or.inl ⟨v, by simpa using huv⟩
      | cons u0 u2 =>
        right
        rw [List.cons_append, List.cons_append] at huv
        injection huv with _ h2
        exact ⟨u2, v, h2⟩

/-- An occurring pattern is no longer than its host. -/
theorem occursIn_length (p s : Str) (h : occursIn p s) : p.length ≤ s.length := by
  obtain ⟨u, v, huv⟩ := h
  subst huv
  simp
  omega

/-- An occurrence inside a middle segment is an occurrence in the whole. -/
theorem occursIn_within (p m s : Str) (hm : occursIn p m) (u v : Str)
    (hs : s = u ++ m ++ v) : occursIn p s := by
  obtain ⟨a, b, hab⟩ := hm
  exact ⟨u ++ a, b ++ v, by simp [hs, hab]⟩

/-- Equation: collapsing a leading doubled newline. -/
theorem collapse_nn (r : Str) :
    collapseNewlines ('\n' :: '\n' :: r) = '\n' :: collapseNewlines r := by
  simp [collapseNewlines]

/-- Equation: a pair that is not a doubled newline passes through. -/
theorem collapse_ne (c d : Char) (r : Str) (h : ¬(c = '\n' ∧ d = '\n')) :
    collapseNewlines (c :: d :: r) = c :: collapseNewlines (d :: r) := by
  simp only [collapseNewlines]
  rw [if_neg h]

/-- Collapsing preserves the head character. -/
theorem collapseNewlines_head : ∀ (s : Str) (c : Char) (t : Str),
    collapseNewlines s = c :: t → ∃ s2, s = c :: s2 := by
  intro s
  rcases s with _ | ⟨a, _ | ⟨b, r⟩⟩
  · intro c t h
    simp [collapseNewlines] at h
  · intro c t h
    rw [show collapseNewlines [a] = [a] from rfl] at h
    injection h with h1 _
    exact ⟨[], by rw [h1]⟩
  · intro c t h
    by_cases hab : a = '\n' ∧ b = '\n'
    · rw [hab.1, hab.2, collapse_nn] at h
      injection h with h1 _
      exact ⟨b :: r, by rw [hab.1, h1]⟩
    · rw [collapse_ne a b r hab] at h
      injection h with h1 _
      exact ⟨b :: r, by rw [h1]⟩

/-- A non-newline head passes through collapsing. -/
theorem collapse_cons_ne_nl (c : Char) (r : Str) (hc : c ≠ '\n') :
    collapseNewlines (c :: r) = c :: collapseNewlines r := by
  rcases r with _ | ⟨d, r2⟩
  · rfl
  · exact collapse_ne c d r2 (fun h => hc h.1)

/-- A newline-free leading segment followed by a newline in the collapsed
string exists verbatim in the original. -/
theorem collapse_prefix_lift : ∀ w : Str, (∀ c ∈ w, c ≠ '\n') →
    ∀ s t : Str, collapseNewlines s = w ++ '\n' :: t →
      ∃ t2, s = w ++ '\n' :: t2 := by
  intro w
  induction w with
  | nil =>
    intro _ s t h
    obtain ⟨s2, hs⟩ := collapseNewlines_head s '\n' t (by simpa using h)
    exact ⟨s2, by simpa using hs⟩
  | cons x w2 ih =>
    intro hnl s t h
    have hx : x ≠ '\n' := hnl x (by simp)
    rw [List.cons_append] at h
    obtain ⟨s2, hs⟩ := collapseNewlines_head s x (w2 ++ '\n' :: t) h
    subst hs
    rw [collapse_cons_ne_nl x s2 hx] at h
    injection h with _ h2
    obtain ⟨t2, ht2⟩ := ih (fun c hc => hnl c (by simp [hc])) s2 t h2
    exact ⟨t2, by simp [ht2]⟩

/-- A newline-free word followed by a newline that occurs in the collapsed
string occurs in the original: collapsing can neither create nor move such a
marker. -/
theorem collapse_marker_lift (w : Str) (hw : w ≠ []) (hnl : ∀ c ∈ w, c ≠ '\n') :
    ∀ s : Str, occursIn (w ++ ['\n']) (collapseNewlines s) →
      occursIn (w ++ ['\n']) s := by
  intro s
  induction s using collapseNewlines.induct with
  | case1 =>
    intro h
    have hlen := occursIn_length _ _ h
    simp [collapseNewlines] at hlen
  | case2 c =>
    intro h
    rw [show collapseNewlines [c] = [c] from rfl] at h
    have hlen := occursIn_length _ _ h
    rcases w with _ | ⟨w0, w2⟩
    · exact absurd rfl hw
    · simp only [List.length_append, List.length_cons, List.length_nil] at hlen
      omega
  | case3 c d r hcd ih =>
    intro h
    obtain ⟨hc, hd⟩ := hcd
    subst hc
    subst hd
    rw [collapse_nn] at h
    obtain ⟨u, v, huv⟩ := h
    cases u with
    | nil =>
      rcases w with _ | ⟨w0, w2⟩
      · exact absurd rfl hw
      · rw [List.nil_append, List.cons_append, List.cons_append] at huv
        injection huv with h1 _
        exact absurd h1.symm (hnl w0 (by simp))
    | cons u0 u2 =>
      rw [List.cons_append] at huv
      injection huv with _ h2
      obtain ⟨a, b, hab⟩ := ih ⟨u2, v, h2⟩
      exact ⟨'\n' :: '\n' :: a, b, by simp [hab]⟩
  | case4 c d r hcd ih =>
    intro h
    rw [collapse_ne c d r hcd] at h
    obtain ⟨u, v, huv⟩ := h
    cases u with
    | nil =>
      rcases w with _ | ⟨w0, w2⟩
      · exact absurd rfl hw
      · rw [List.nil_append, List.cons_append, List.cons_append] at huv
        injection huv with h1 h2
        have h2x : collapseNewlines (d :: r) = w2 ++ '\n' :: v := by
          simpa using h2
        obtain ⟨t2, ht2⟩ :=
          collapse_prefix_lift w2 (fun x hx => hnl x (by simp [hx])) (d :: r) v h2x
        refine ⟨[], t2, ?_⟩
        rw [List.nil_append, List.cons_append, List.cons_append]
        rw [ht2, ← h1]
        simp
    | cons u0 u2 =>
      rw [List.cons_append] at huv
      injection huv with _ h2
      obtain ⟨a, b, hab⟩ := ih ⟨u2, v, h2⟩
      exact ⟨c :: a, b, by simp [hab]⟩

/-- The truncated string is a leading segment of the input. -/
theorem dropFromMarker_decomp : ∀ s : Str, ∃ t, s = dropFromMarker s ++ t := by
  intro s
  induction s with
  | nil => exact ⟨[], rfl⟩
  | cons c r ih =>
    by_cases hs : startsWithB moreMarker (c :: r) = true
    · simp only [dropFromMarker]
      rw [if_pos hs]
      exact ⟨c :: r, rfl⟩
    · simp only [dropFromMarker]
      rw [if_neg hs]
      obtain ⟨t, ht⟩ := ih
      exact ⟨t, by rw [List.cons_append, ← ht]⟩

/-- Truncation at the first marker leaves no marker occurrence behind. -/
theorem dropFromMarker_no_marker : ∀ s : Str,
    ¬ occursIn moreMarker (dropFromMarker s) := by
  have hcons : moreMarker = '…' :: ("...more\n".toList) := by decide
  have h9 : moreMarker.length = 9 := by decide
  intro s
  induction s with
  | nil =>
    intro h
    have := occursIn_length _ _ h
    rw [show dropFromMarker [] = [] from rfl] at this
    simp [h9] at this
  | cons c r ih =>
    intro h
    by_cases hs : startsWithB moreMarker (c :: r) = true
    · rw [show dropFromMarker (c :: r) = [] from by
        simp only [dropFromMarker]; rw [if_pos hs]] at h
      have := occursIn_length _ _ h
      simp [h9] at this
    · rw [show dropFromMarker (c :: r) = c :: dropFromMarker r from by
        simp only [dropFromMarker]; rw [if_neg hs]] at h
      obtain ⟨u, v, huv⟩ := h
      cases u with
      | nil =>
        rw [hcons, List.nil_append, List.cons_append] at huv
        injection huv with h1 h2
        obtain ⟨t, ht⟩ := dropFromMarker_decomp r
        apply hs
        rw [startsWithB_iff]
        refine ⟨v ++ t, ?_⟩
        rw [hcons, List.cons_append]
        rw [show c :: r = c :: (dropFromMarker r ++ t) from by rw [← ht]]
        rw [h2, ← h1]
        simp
      | cons u0 u2 =>
        rw [List.cons_append] at huv
        injection huv with _ h2
        exact ih ⟨u2, v, h2⟩

/-- Trimming returns a contiguous middle segment of its input. -/
theorem jsTrim_decomp (s : Str) : ∃ u v, s = u ++ jsTrim s ++ v := by
  refine ⟨s.takeWhile isJsWhitespace,
    ((s.dropWhile isJsWhitespace).reverse.takeWhile isJsWhitespace).reverse, ?_⟩
  conv_lhs => rw [← List.takeWhile_append_dropWhile (p := isJsWhitespace) (l := s)]
  rw [List.append_assoc]
  congr 1
  have h1 := List.takeWhile_append_dropWhile (p := isJsWhitespace)
    (l := (s.dropWhile isJsWhitespace).reverse)
  calc s.dropWhile isJsWhitespace
      = (s.dropWhile isJsWhitespace).reverse.reverse := by rw [List.reverse_reverse]
    _ = ((s.dropWhile isJsWhitespace).reverse.takeWhile isJsWhitespace ++
          (s.dropWhile isJsWhitespace).reverse.dropWhile isJsWhitespace).reverse := by
          rw [h1]
    _ = jsTrim s ++
          ((s.dropWhile isJsWhitespace).reverse.takeWhile isJsWhitespace).reverse := by
          rw [List.reverse_append]
          rfl

/-- Collapsing a string with no tripled newline leaves no doubled newline. -/
theorem collapse_no_double : ∀ s : Str, ¬ occursIn tripleNewline s →
    ¬ occursIn doubleNewline (collapseNewlines s) := by
  intro s
  induction s using collapseNewlines.induct with
  | case1 =>
    intro _ h
    have := occursIn_length _ _ h
    simp [collapseNewlines, doubleNewline] at this
  | case2 c =>
    intro _ h
    rw [show collapseNewlines [c] = [c] from rfl] at h
    have := occursIn_length _ _ h
    simp [doubleNewline] at this
  | case3 c d r hcd ih =>
    intro hno h
    obtain ⟨hc, hd⟩ := hcd
    subst hc
    subst hd
    rw [collapse_nn] at h
    have hnr : ¬ occursIn tripleNewline r := by
      rintro ⟨u, v, huv⟩
      exact hno ⟨'\n' :: '\n' :: u, v, by simp [huv]⟩
    obtain ⟨u, v, huv⟩ := h
    cases u with
    | nil =>
      rw [List.nil_append, show (doubleNewline ++ v : Str) = '\n' :: '\n' :: v
        from rfl] at huv
      injection huv with _ h2
      obtain ⟨r2, hr2⟩ := collapseNewlines_head r '\n' v h2
      exact hno ⟨[], r2, by simp [tripleNewline, hr2]⟩
    | cons u0 u2 =>
      rw [List.cons_append] at huv
      injection huv with _ h2
      exact ih hnr ⟨u2, v, h2⟩
  | case4 c d r hcd ih =>
    intro hno h
    rw [collapse_ne c d r hcd] at h
    have hnr : ¬ occursIn tripleNewline (d :: r) := by
      rintro ⟨u, v, huv⟩
      exact hno ⟨c :: u, v, by simp [huv]⟩
    obtain ⟨u, v, huv⟩ := h
    cases u with
    | nil =>
      rw [List.nil_append, show (doubleNewline ++ v : Str) = '\n' :: '\n' :: v
        from rfl] at huv
      injection huv with h1 h2
      obtain ⟨r2, hr2⟩ := collapseNewlines_head (d :: r) '\n' v h2
      injection hr2 with hd2 _
      exact hcd ⟨h1, hd2⟩
    | cons u0 u2 =>
      rw [List.cons_append] at huv
      injection huv with _ h2
      exact ih hnr ⟨u2, v, h2⟩

/-- C4 (counterexample): on `"a\n\n\nb"` — which contains no marker — the
cleaned output is `"a\n\nb"`, which still contains two consecutive newlines:
the JS global replace collapses non-overlapping pairs in one pass, so three
newlines become two, refuting "contains no two consecutive newline
characters". -/
theorem c4_counterexample :
    trimDescription ("a\n\n\nb".toList) = "a\n\nb".toList ∧
    containsSub doubleNewline (trimDescription ("a\n\n\nb".toList)) = true := by
  exact ⟨by decide, by decide⟩

/-- C4 (amended): the cleaned description never contains the marker
`"…...more\n"` (everything from its first occurrence on is dropped, and
collapsing cannot manufacture a new occurrence), and the single-pass
collapse of doubled newlines guarantees no two consecutive newlines in the
output whenever the input has no three consecutive newlines (three or more
consecutive input newlines can leave a doubled newline behind). -/
theorem c4_trim_description_amended (s : Str) :
    containsSub moreMarker (trimDescription s) = false ∧
    (containsSub tripleNewline s = false →
      containsSub doubleNewline (trimDescription s) = false) := by
  have hsplit : moreMarker = "…...more".toList ++ ['\n'] := by decide
  constructor
  · by_cases hemp : s.isEmpty
    · rw [trimDescription, if_pos hemp]
      decide
    · rw [trimDescription, if_neg hemp]
      rw [← Bool.not_eq_true, containsSub_iff]
      intro hocc
      obtain ⟨u, v, huv⟩ := jsTrim_decomp (collapseNewlines (dropFromMarker s))
      have h1 : occursIn moreMarker (collapseNewlines (dropFromMarker s)) :=
        occursIn_within _ _ _ hocc u v huv
      rw [hsplit] at h1
      have h2 := collapse_marker_lift ("…...more".toList) (by decide) (by decide)
        (dropFromMarker s) h1
      rw [← hsplit] at h2
      exact dropFromMarker_no_marker s h2
  · intro hnot3
    by_cases hemp : s.isEmpty
    · rw [trimDescription, if_pos hemp]
      decide
    · rw [trimDescription, if_neg hemp]
      have hno3 : ¬ occursIn tripleNewline s := by
        intro hocc
        rw [(containsSub_iff _ _).mpr hocc] at hnot3
        exact absurd hnot3 (by simp)
      have hno3d : ¬ occursIn tripleNewline (dropFromMarker s) := by
        intro hocc
        obtain ⟨t, ht⟩ := dropFromMarker_decomp s
        exact hno3 (occursIn_within _ _ _ hocc [] t (by simp [← ht]))
      have hno2 := collapse_no_double (dropFromMarker s) hno3d
      rw [← Bool.not_eq_true, containsSub_iff]
      intro hocc
      obtain ⟨u, v, huv⟩ := jsTrim_decomp (collapseNewlines (dropFromMarker s))
      exact hno2 (occursIn_within _ _ _ hocc u v huv)

/-- C4 (amended, witness): a marker-bearing description loses the marker; a
description whose newline runs have length at most two comes out with no
doubled newline. -/
theorem c4_trim_description_amended_witness :
    containsSub moreMarker (trimDescription ("intro…...more\nhidden".toList)) =
      false ∧
    containsSub tripleNewline ("x\n\ny".toList) = false ∧
    containsSub doubleNewline (trimDescription ("x\n\ny".toList)) = false := by
  exact ⟨(c4_trim_description_amended _).1, by decide,
    (c4_trim_description_amended _).2 (by decide)⟩

end YoutubeScraper
